import Mathlib

/-
Verification of the use-form-schema hook: a shallow embedding of the form
state reducer, the schema adapter, the validation orchestrator and the
submit handler, followed by theorems about the documented behaviour.
-/

namespace UseFormSchema

/-- JS-object-like string-keyed map, modelled as an association list where
assignment replaces an existing binding in place (keeping key order) or
appends a new binding at the end, matching object spread and index
assignment semantics. -/
abbrev JsMap (A : Type) := List (String × A)

/-- JS property assignment `m[k] = a`: replace in place or append. -/
def setK {A : Type} (m : JsMap A) (k : String) (a : A) : JsMap A :=
  match m with
  | [] => [(k, a)]
  | (k₂, a₂) :: rest =>
      if k₂ = k then (k, a) :: rest else (k₂, a₂) :: setK rest k a

/-- JS property read `m[k]`, `none` meaning undefined. -/
def getK {A : Type} (m : JsMap A) (k : String) : Option A :=
  match m with
  | [] => none
  | (k₂, a₂) :: rest => if k₂ = k then some a₂ else getK rest k

/-- JS object spread merge of two maps, the right one winning per key. -/
def mergeK {A : Type} (m m₂ : JsMap A) : JsMap A :=
  m₂.foldl (fun acc p => setK acc p.1 p.2) m

/-- FormState of the hook (source lines 3 to 12), with values, errors and
touched as JS-object-like maps keyed by field name. -/
structure FormState (V : Type) where
  values : JsMap V
  errors : JsMap String
  touched : JsMap Bool
  isSubmitting : Bool
  isValidating : Bool
  isDirty : Bool
  isValid : Bool
  submitAttemptCount : Nat
deriving Repr, DecidableEq

/-- FormAction of the hook (source lines 14 to 27), one constructor per
action tag actually dispatched. SET_TOUCHED carries an optional payload
because the reducer applies a nullish-coalescing default; RESET carries an
optional payload because the reducer falls back to the current values. -/
inductive FormAction (V : Type) where
  | SET_VALUE (field : String) (payload : V)
  | SET_VALUES (payload : JsMap V)
  | SET_ERROR (field : String) (payload : String)
  | SET_ERRORS (payload : JsMap String)
  | SET_TOUCHED (field : String) (payload : Option Bool)
  | SET_SUBMITTING (payload : Bool)
  | SET_VALIDATING (payload : Bool)
  | RESET (payload : Option (JsMap V))
  | SUBMIT_ATTEMPT
deriving Repr, DecidableEq

/-- The form reducer (source lines 114 to 196), translated case by case. -/
def formReducer {V : Type} (state : FormState V) (action : FormAction V) :
    FormState V :=
  match action with
  | .SET_VALUE field payload =>
      { state with values := setK state.values field payload, isDirty := true }
  | .SET_VALUES payload =>
      { state with values := mergeK state.values payload, isDirty := true }
  | .SET_ERROR field payload =>
      { state with errors := setK state.errors field payload, isValid := false }
  | .SET_ERRORS payload =>
      { state with errors := payload, isValid := payload.isEmpty }
  | .SET_TOUCHED field payload =>
      { state with touched := setK state.touched field (payload.getD true) }
  | .SET_SUBMITTING payload =>
      { state with isSubmitting := payload, isValid := payload }
  | .SET_VALIDATING payload =>
      { state with isValidating := payload }
  | .SUBMIT_ATTEMPT =>
      { state with submitAttemptCount := state.submitAttemptCount + 1 }
  | .RESET payload =>
      { values := payload.getD state.values
        errors := []
        touched := []
        isSubmitting := false
        isValidating := false
        isDirty := false
        isValid := true
        submitAttemptCount := 0 }

/-- Applying a dispatched action sequence in order to a state. -/
def applyActions {V : Type} (s : FormState V) (acts : List (FormAction V)) :
    FormState V :=
  acts.foldl formReducer s

/-- The initial reducer state built at Controller construction
(source lines 227 to 236). -/
def initialFormState {V : Type} (initialValues : JsMap V) : FormState V :=
  { values := initialValues
    errors := []
    touched := []
    isSubmitting := false
    isValidating := false
    isDirty := false
    isValid := false
    submitAttemptCount := 0 }

/-- Result of detectSchemaType (source lines 92 to 111). -/
inductive SchemaType where
  | unknown
  | zod
  | yup
deriving Repr, DecidableEq

/-- Structural probe results of a candidate schema object, one boolean per
condition tested by detectSchemaType. -/
structure SchemaShape where
  isNonNullObject : Bool
  safeParseIsFunction : Bool
  defIsDefined : Bool
  yupMarkerIsTrue : Bool
  validateIsFunction : Bool
deriving Repr, DecidableEq

/-- detectSchemaType (source lines 92 to 111): zod is probed first via
safeParse plus the def property, then yup via its marker plus validate. -/
def detectSchemaType (schema : SchemaShape) : SchemaType :=
  if !schema.isNonNullObject then .unknown
  else if schema.safeParseIsFunction && schema.defIsDefined then .zod
  else if schema.yupMarkerIsTrue && schema.validateIsFunction then .yup
  else .unknown

/-- One entry of the errors array carried by a rejected zod parse: a path of
segments and a message. -/
structure ZodIssue where
  path : List String
  message : String
deriving Repr, DecidableEq

/-- One entry of the inner array carried by a yup aggregate validation
error; the path may be absent (undefined). -/
structure YupIssue where
  path : Option String
  message : String
deriving Repr, DecidableEq

/-- Shape of a rejected yup validate call: either an aggregate error
carrying an inner array, or a single error carrying path and message
fields but no inner field. -/
inductive YupFailure where
  | aggregate (inner : List YupIssue)
  | single (path : Option String) (message : String)
deriving Repr, DecidableEq

/-- A schema together with the outcome of running its native validation
entry point on the values snapshot under test: a zod schema resolves
(`none`) or rejects with a ZodError carrying its errors array; a yup schema
resolves or rejects with a ValidationError; `unsupported` is any other
object, for which detectSchemaType returned unknown and line 256 throws a
configuration Error instead of calling the schema. -/
inductive SchemaModel where
  | zod (failure : Option (List ZodIssue))
  | yup (failure : Option YupFailure)
  | unsupported

/-- The cached schemaType that detectSchemaType produced for each model. -/
def schemaTypeOf : SchemaModel → SchemaType
  | .zod _ => .zod
  | .yup _ => .yup
  | .unsupported => .unknown

/-- The configuration Error thrown at source line 256 for an unsupported
schema. -/
inductive ConfigError where
  | unsupportedSchema
deriving Repr, DecidableEq

/-- Outcome of awaiting one async validator call: `Except.error` models a
rejected promise or thrown error, `Except.ok` a resolution with a message
or null. -/
abbrev AvOutcome := Except Unit (Option String)

/-- A registered async validator (source lines 42 to 46): a field name and
a validator function receiving the field value (undefined when the field is
absent) and the whole values snapshot. -/
structure AsyncValidator (V : Type) where
  field : String
  validator : Option V → JsMap V → AvOutcome

/-- One iteration of the async-validator loop (source lines 264 to 276):
the validator is invoked with the field value and the snapshot; a truthy
resolved message is recorded for the field, a rejection records the
synthetic generic message, and a null or empty-string resolution records
nothing. -/
def asyncStep {V : Type} (values : JsMap V) (acc : JsMap String)
    (av : AsyncValidator V) : JsMap String :=
  match av.validator (getK values av.field) values with
  | .ok (some msg) => if msg ≠ "" then setK acc av.field msg else acc
  | .ok none => acc
  | .error _ => setK acc av.field "Validation error occurred"

/-- The async-validator loop continued from an already-accumulated error
map. -/
def runAsyncFrom {V : Type} (values : JsMap V) (acc : JsMap String)
    (avs : List (AsyncValidator V)) : JsMap String :=
  avs.foldl (asyncStep values) acc

/-- The whole async-validator loop (source lines 263 to 276), starting from
an empty error map. -/
def runAsyncValidators {V : Type} (avs : List (AsyncValidator V))
    (values : JsMap V) : JsMap String :=
  runAsyncFrom values [] avs

/-- One iteration of the zod error normalisation loop (source lines 288 to
293): take the first path segment of the entry and, when it is truthy,
assign the message under that key. -/
def zodStep (errs : JsMap String) (err : ZodIssue) : JsMap String :=
  match err.path.head? with
  | some p => if p ≠ "" then setK errs p err.message else errs
  | none => errs

/-- Normalisation of a zod errors array (source lines 287 to 293): for each
entry take the first path segment, and when it is truthy assign the message
under that key, later entries overwriting earlier ones. -/
def zodNormalize (issues : List ZodIssue) : JsMap String :=
  issues.foldl zodStep []

/-- Normalisation of a yup aggregate error (source lines 298 to 303): for
each inner entry with a truthy path, assign the message under that path. -/
def yupInnerNormalize (inner : List YupIssue) : JsMap String :=
  inner.foldl
    (fun errs err =>
      match err.path with
      | some p => if p ≠ "" then setK errs p err.message else errs
      | none => errs)
    []

/-- Normalisation of a single yup error (source lines 313 to 317): one
binding when the path is truthy, otherwise an empty map. -/
def yupSingleNormalize (path : Option String) (message : String) :
    JsMap String :=
  match path with
  | some p => if p ≠ "" then [(p, message)] else []
  | none => []

/-- The try body and catch handler of validate (source lines 245 to 319),
per schema model: the returned Except is the settlement of the promise
(`Except.error` would be a rejection that escapes validate) paired with the
SET_ERRORS dispatches performed. On schema success the errors are cleared
and the async validators run; on schema failure the catch normalises the
error by the cached schema type; for an unsupported schema the thrown
configuration Error reaches the same catch, matches no branch (a plain
Error has neither an inner nor a path field), dispatches nothing and falls
through to return false. -/
def validateCore {V : Type} (sm : SchemaModel) (avs : List (AsyncValidator V))
    (values : JsMap V) : Except ConfigError Bool × List (FormAction V) :=
  match sm with
  | .zod none | .yup none =>
      let asyncErrors := runAsyncValidators avs values
      if asyncErrors.isEmpty then
        (Except.ok true, [.SET_ERRORS []])
      else
        (Except.ok false, [.SET_ERRORS [], .SET_ERRORS asyncErrors])
  | .zod (some issues) =>
      (Except.ok false, [.SET_ERRORS (zodNormalize issues)])
  | .yup (some (.aggregate inner)) =>
      (Except.ok false, [.SET_ERRORS (yupInnerNormalize inner)])
  | .yup (some (.single p m)) =>
      (Except.ok false, [.SET_ERRORS (yupSingleNormalize p m)])
  | .unsupported =>
      (Except.ok false, [])

/-- One run of validate (source lines 243 to 325): SET_VALIDATING true
first, the core dispatches, and SET_VALIDATING false from the finally block
on every exit path. -/
def validateRun {V : Type} (sm : SchemaModel) (avs : List (AsyncValidator V))
    (values : JsMap V) : Except ConfigError Bool × List (FormAction V) :=
  ((validateCore sm avs values).1,
   .SET_VALIDATING true ::
     (validateCore sm avs values).2 ++ [.SET_VALIDATING false])

/-- Whether a validate settlement is a rejection that surfaces to the
caller. -/
def isFatal : Except ConfigError Bool → Bool
  | .error _ => true
  | .ok _ => false

/-- One run of handleSubmit (source lines 399 to 433): dispatch
SUBMIT_ATTEMPT, await validate on the captured state values, and when it
resolved true dispatch SET_SUBMITTING true, await onSubmit (`Except.error`
models a rejection, caught and logged at line 426), optionally dispatch
RESET with the initial values, and dispatch SET_SUBMITTING false from the
finally block. Returns the settlement, the dispatched actions in order, and
whether onSubmit was invoked. -/
def handleSubmitRun {V : Type} (sm : SchemaModel)
    (avs : List (AsyncValidator V)) (stateValues : JsMap V)
    (onSubmitResult : Except Unit Unit) (resetOnSubmit : Bool)
    (initialValues : JsMap V) :
    Except ConfigError Unit × List (FormAction V) × Bool :=
  match (validateRun sm avs stateValues).1 with
  | .error e =>
      (Except.error e,
       FormAction.SUBMIT_ATTEMPT :: (validateRun sm avs stateValues).2,
       false)
  | .ok isValid =>
      if isValid then
        (Except.ok (),
         (FormAction.SUBMIT_ATTEMPT :: (validateRun sm avs stateValues).2) ++
           FormAction.SET_SUBMITTING true ::
             ((match onSubmitResult with
               | .ok _ =>
                   if resetOnSubmit then
                     [FormAction.RESET (some initialValues)]
                   else []
               | .error _ => []) ++ [FormAction.SET_SUBMITTING false]),
         true)
      else
        (Except.ok (),
         FormAction.SUBMIT_ATTEMPT :: (validateRun sm avs stateValues).2,
         false)

end UseFormSchema

namespace UseFormSchema

/-- Claim C3 target: RESET (source lines 181 to 191) rebuilds the state from
scratch, replacing values with the payload when one is supplied (truthy) and
keeping the prior values otherwise. -/
theorem reset_clears_state {V : Type} (s : FormState V)
    (p : Option (JsMap V)) :
    formReducer s (.RESET p) =
      { values := p.getD s.values
        errors := []
        touched := []
        isSubmitting := false
        isValidating := false
        isDirty := false
        isValid := true
        submitAttemptCount := 0 } := rfl

/-- Claim C4 target: SET_SUBMITTING (source lines 162 to 167) writes the flag
into both isSubmitting and isValid and leaves every other field unchanged. -/
theorem setSubmitting_couples_isValid {V : Type} (s : FormState V) (b : Bool) :
    (formReducer s (.SET_SUBMITTING b)).isSubmitting = b ∧
    (formReducer s (.SET_SUBMITTING b)).isValid = b ∧
    (formReducer s (.SET_SUBMITTING b)).values = s.values ∧
    (formReducer s (.SET_SUBMITTING b)).errors = s.errors ∧
    (formReducer s (.SET_SUBMITTING b)).touched = s.touched ∧
    (formReducer s (.SET_SUBMITTING b)).isValidating = s.isValidating ∧
    (formReducer s (.SET_SUBMITTING b)).isDirty = s.isDirty ∧
    (formReducer s (.SET_SUBMITTING b)).submitAttemptCount =
      s.submitAttemptCount :=
  ⟨rfl, rfl, rfl, rfl, rfl, rfl, rfl, rfl⟩

/-- Claim C8 target: a one-step characterisation of isDirty across every
reducer transition. SET_VALUE and SET_VALUES force it true, RESET forces it
false, and every other transition leaves it unchanged; hence along any
transition sequence isDirty becomes true at the first SET_VALUE or
SET_VALUES and only a RESET can return it to false. -/
theorem isDirty_only_reset_clears {V : Type} (s : FormState V)
    (a : FormAction V) :
    (formReducer s a).isDirty =
      (match a with
       | .SET_VALUE _ _ => true
       | .SET_VALUES _ => true
       | .RESET _ => false
       | _ => s.isDirty) := by
  cases a <;> rfl

/-- Claim C10 target: the initial state has an empty error map yet
isValid = false, so before any validation write the equivalence between
isValid and emptiness of the error map fails at the public interface. -/
theorem initial_state_isValid_mismatch {V : Type} (iv : JsMap V) :
    (initialFormState iv).errors = [] ∧
    (initialFormState iv).isValid = false ∧
    ¬((initialFormState iv).isValid = true ↔ (initialFormState iv).errors = []) := by
  refine ⟨rfl, rfl, fun h => ?_⟩
  exact Bool.false_ne_true (h.mpr rfl)

/-- Helper: applying a concatenation of action lists is sequential
application. -/
theorem applyActions_append {V : Type} (s : FormState V)
    (l₁ l₂ : List (FormAction V)) :
    applyActions s (l₁ ++ l₂) = applyActions (applyActions s l₁) l₂ := by
  simp [applyActions]

/-- Helper: the last element of a list ending in a singleton. -/
theorem getLast?_append_single {α : Type} (l : List α) (a : α) :
    (l ++ [a]).getLast? = some a := by
  simp

/-- Claim C2 target: whatever the schema model, the async validators and the
values snapshot, the dispatch sequence of a validate run ends with
SET_VALIDATING false, so isValidating is false once the call settled. -/
theorem validate_always_releases_isValidating {V : Type} (sm : SchemaModel)
    (avs : List (AsyncValidator V)) (values : JsMap V) (s : FormState V) :
    ((validateRun sm avs values).2).getLast? =
      some (FormAction.SET_VALIDATING false) ∧
    (applyActions s (validateRun sm avs values).2).isValidating = false := by
  constructor
  · show ((FormAction.SET_VALIDATING true :: (validateCore sm avs values).2) ++
        [FormAction.SET_VALIDATING false]).getLast? = _
    exact getLast?_append_single _ _
  · show (applyActions s
        ((FormAction.SET_VALIDATING true :: (validateCore sm avs values).2) ++
          [FormAction.SET_VALIDATING false])).isValidating = false
    rw [applyActions_append]
    rfl

/-- Claim C1 counterexample: with an unsupported schema (detectSchemaType
returned unknown), validate does not surface the configuration error thrown
at line 256 — its own catch swallows it, the call settles with ok false. -/
theorem unsupported_schema_not_fatal_cex :
    isFatal (validateRun (V := Nat) SchemaModel.unsupported [] []).1 = false ∧
    (validateRun (V := Nat) SchemaModel.unsupported [] []).1 =
      Except.ok false ∧
    (validateRun (V := Nat) SchemaModel.unsupported [] []).2 =
      [FormAction.SET_VALIDATING true, FormAction.SET_VALIDATING false] :=
  ⟨rfl, rfl, rfl⟩

/-- Claim C1 target (amended): for an unsupported schema (detectSchemaType
returned unknown, so line 256 throws), the thrown configuration error is
caught by the catch of validate itself and swallowed: the call resolves
false rather than rejecting, no field-error write is dispatched (the errors
map is untouched), and only isValidating toggles. -/
theorem unsupported_schema_resolves_false {V : Type}
    (avs : List (AsyncValidator V)) (values : JsMap V) (s : FormState V) :
    schemaTypeOf SchemaModel.unsupported = SchemaType.unknown ∧
    validateRun (V := V) SchemaModel.unsupported avs values =
      (Except.ok false,
       [FormAction.SET_VALIDATING true, FormAction.SET_VALIDATING false]) ∧
    (applyActions s
        (validateRun (V := V) SchemaModel.unsupported avs values).2).errors =
      s.errors ∧
    (applyActions s
        (validateRun (V := V) SchemaModel.unsupported avs values).2).isValidating =
      false :=
  ⟨rfl, rfl, rfl, rfl⟩

/-- Helper: reading a key after a JS assignment. -/
theorem getK_setK {A : Type} (m : JsMap A) (k q : String) (a : A) :
    getK (setK m k a) q = if k = q then some a else getK m q := by
  induction m with
  | nil => by_cases h : k = q <;> simp [setK, getK, h]
  | cons p rest ih =>
      obtain ⟨k₂, a₂⟩ := p
      by_cases h₂ : k₂ = k
      · subst h₂
        by_cases hq : k₂ = q <;> simp [setK, getK, hq]
      · by_cases hq : k₂ = q
        · subst hq
          have hk : ¬k = k₂ := fun h => h₂ h.symm
          simp [setK, getK, h₂, hk]
        · simp [setK, getK, h₂, hq, ih]

/-- Helper: find? distributes over append, the left list probed first. -/
theorem find?_append_split {α : Type} (l₁ l₂ : List α) (p : α → Bool) :
    (l₁ ++ l₂).find? p =
      match l₁.find? p with
      | some a => some a
      | none => l₂.find? p := by
  induction l₁ with
  | nil => rfl
  | cons x xs ih =>
      cases hx : p x <;> simp [List.find?, hx, ih]

/-- Helper: key lookup in the zod normalisation fold, for a truthy key:
the last entry whose first path segment equals the key wins, and when no
entry matches the accumulator is read. -/
theorem getK_foldl_zodStep (issues : List ZodIssue) (acc : JsMap String)
    (k : String) (hk : k ≠ "") :
    getK (issues.foldl zodStep acc) k =
      match issues.reverse.find?
          (fun i => decide (i.path.head? = some k)) with
      | some i => some i.message
      | none => getK acc k := by
  induction issues generalizing acc with
  | nil => rfl
  | cons i is ih =>
      rw [List.foldl_cons, ih, List.reverse_cons, find?_append_split]
      cases hfind : is.reverse.find?
          (fun i => decide (i.path.head? = some k)) with
      | some j => rfl
      | none =>
          cases hhead : i.path.head? with
          | none => simp [List.find?, hhead, zodStep]
          | some p =>
              by_cases hpk : p = k
              · subst hpk
                simp [List.find?, hhead, zodStep, hk, getK_setK]
              · by_cases hp : p = ""
                · subst hp
                  simp [List.find?, hhead, zodStep, hpk]
                · simp [List.find?, hhead, zodStep, hp, hpk, getK_setK]

/-- Helper: the zod normalisation never records the empty key, since the
truthiness guard at line 290 drops falsy first segments. -/
theorem getK_foldl_zodStep_emptyKey (issues : List ZodIssue)
    (acc : JsMap String) (h : getK acc "" = none) :
    getK (issues.foldl zodStep acc) "" = none := by
  induction issues generalizing acc with
  | nil => exact h
  | cons i is ih =>
      rw [List.foldl_cons]
      apply ih
      unfold zodStep
      rcases i.path.head? with _ | p
      · exact h
      · by_cases hp : p = ""
        · simp [hp, h]
        · simp [hp, getK_setK, h]

/-- Claim C7 counterexample: a zod failure entry whose first path segment is
the empty string is dropped by the truthiness guard at line 290, so its
first path segment is not used as a field key: the normalised mapping is
empty and SET_ERRORS is dispatched with an empty map. -/
theorem zod_empty_path_segment_cex :
    zodNormalize [⟨[""], "boom"⟩] = [] ∧
    getK (zodNormalize [⟨[""], "boom"⟩]) "" = none ∧
    (validateRun (V := Nat)
        (SchemaModel.zod (some [⟨[""], "boom"⟩])) [] []).2 =
      [FormAction.SET_VALIDATING true, FormAction.SET_ERRORS [],
       FormAction.SET_VALIDATING false] :=
  ⟨rfl, rfl, rfl⟩

/-- Claim C7 target (amended): on a zod failure the normalised mapping is
written via SET_ERRORS, and for every key the mapping holds exactly the
message of the last entry whose first path segment equals that key — except
that entries whose first path segment is missing or empty (falsy) are
skipped, so the empty key is never bound. -/
theorem zod_error_normalization {V : Type} (issues : List ZodIssue)
    (avs : List (AsyncValidator V)) (values : JsMap V) (k : String) :
    (validateRun (V := V) (SchemaModel.zod (some issues)) avs values).2 =
      [FormAction.SET_VALIDATING true,
       FormAction.SET_ERRORS (zodNormalize issues),
       FormAction.SET_VALIDATING false] ∧
    getK (zodNormalize issues) k =
      (if k = "" then none
       else
         (issues.reverse.find?
             (fun i => decide (i.path.head? = some k))).map
           (fun i => i.message)) := by
  refine ⟨rfl, ?_⟩
  by_cases hk : k = ""
  · subst hk
    simpa using getK_foldl_zodStep_emptyKey issues [] rfl
  · rw [if_neg hk, zodNormalize, getK_foldl_zodStep issues [] k hk]
    cases hfind : issues.reverse.find?
        (fun i => decide (i.path.head? = some k)) <;> rfl

/-- Claim C5 counterexample: an async validator that resolves the empty
string — a non-null message — records no error at all, because the guard at
line 270 tests truthiness, and the validate run resolves true. -/
theorem empty_string_message_ignored_cex :
    runAsyncValidators (V := Nat)
        [⟨"a", fun _ _ => Except.ok (some "")⟩] [] = [] ∧
    (validateRun (V := Nat) (SchemaModel.zod none)
        [⟨"a", fun _ _ => Except.ok (some "")⟩] []).1 = Except.ok true :=
  ⟨rfl, rfl⟩

/-- Claim C5 target (amended): when the schema check succeeds, the async
validators run in registration order over one shared error map, each
invoked on the field value and the snapshot; a truthy (non-empty) resolved
message is recorded for the field, a rejected validator records the
synthetic generic message and does not stop the remaining validators, a
null or empty-string resolution records nothing; the run resolves false
exactly when the collected map is non-empty, in which case it is written
via a second SET_ERRORS after the clearing one. -/
theorem async_validator_fanout {V : Type} (sm : SchemaModel)
    (avs : List (AsyncValidator V)) (values : JsMap V)
    (h : sm = SchemaModel.zod none ∨ sm = SchemaModel.yup none) :
    (validateRun sm avs values).1 =
      Except.ok (runAsyncValidators avs values).isEmpty ∧
    (validateRun sm avs values).2 =
      FormAction.SET_VALIDATING true :: FormAction.SET_ERRORS [] ::
        ((if (runAsyncValidators avs values).isEmpty then []
          else [FormAction.SET_ERRORS (runAsyncValidators avs values)]) ++
         [FormAction.SET_VALIDATING false]) ∧
    (∀ pre av post, avs = pre ++ av :: post →
       runAsyncValidators avs values =
         runAsyncFrom values
           (asyncStep values (runAsyncValidators pre values) av) post) ∧
    (∀ acc av, av.validator (getK values av.field) values = Except.error () →
       asyncStep values acc av =
         setK acc av.field "Validation error occurred") ∧
    (∀ acc av msg,
       av.validator (getK values av.field) values = Except.ok (some msg) →
       msg ≠ "" → asyncStep values acc av = setK acc av.field msg) ∧
    (∀ acc av, av.validator (getK values av.field) values = Except.ok none →
       asyncStep values acc av = acc) := by
  refine ⟨?_, ?_, ?_, ?_, ?_, ?_⟩
  · rcases h with rfl | rfl <;>
      by_cases hae : (runAsyncValidators avs values).isEmpty <;>
      simp [validateRun, validateCore, hae]
  · rcases h with rfl | rfl <;>
      by_cases hae : (runAsyncValidators avs values).isEmpty <;>
      simp [validateRun, validateCore, hae]
  · intro pre av post hsplit
    subst hsplit
    simp [runAsyncValidators, runAsyncFrom, List.foldl_append]
  · intro acc av hres
    unfold asyncStep
    rw [hres]
  · intro acc av msg hres hmsg
    unfold asyncStep
    rw [hres]
    simp [hmsg]
  · intro acc av hres
    unfold asyncStep
    rw [hres]

/-- Claim C5 witness: a single async validator on username resolving
"taken" makes validate resolve false after a passing schema. -/
theorem async_validator_fanout_witness :
    (validateRun (V := Nat) (SchemaModel.zod none)
        [⟨"username", fun _ _ => Except.ok (some "taken")⟩] []).1 =
      Except.ok false := by
  rw [(async_validator_fanout (SchemaModel.zod none)
      [⟨"username", fun _ _ => Except.ok (some "taken")⟩] []
      (Or.inl rfl)).1]
  rfl

/-- Helper: every action dispatched by a validate run is a SET_VALIDATING
or a SET_ERRORS. -/
theorem validate_dispatch_shape {V : Type} (sm : SchemaModel)
    (avs : List (AsyncValidator V)) (values : JsMap V) :
    ∀ a ∈ (validateRun sm avs values).2,
      (∃ b, a = FormAction.SET_VALIDATING b) ∨
      (∃ m, a = FormAction.SET_ERRORS m) := by
  intro a ha
  cases sm with
  | zod f =>
      cases f with
      | none =>
          by_cases hae : (runAsyncValidators avs values).isEmpty <;>
            simp [validateRun, validateCore, hae] at ha <;>
            rcases ha with rfl | rfl | rfl | rfl <;>
            first
              | exact Or.inl ⟨_, rfl⟩
              | exact Or.inr ⟨_, rfl⟩
      | some issues =>
          simp [validateRun, validateCore] at ha
          rcases ha with rfl | rfl | rfl <;>
            first
              | exact Or.inl ⟨_, rfl⟩
              | exact Or.inr ⟨_, rfl⟩
  | yup f =>
      cases f with
      | none =>
          by_cases hae : (runAsyncValidators avs values).isEmpty <;>
            simp [validateRun, validateCore, hae] at ha <;>
            rcases ha with rfl | rfl | rfl | rfl <;>
            first
              | exact Or.inl ⟨_, rfl⟩
              | exact Or.inr ⟨_, rfl⟩
      | some yf =>
          cases yf with
          | aggregate inner =>
              simp [validateRun, validateCore] at ha
              rcases ha with rfl | rfl | rfl <;>
                first
                  | exact Or.inl ⟨_, rfl⟩
                  | exact Or.inr ⟨_, rfl⟩
          | single p m =>
              simp [validateRun, validateCore] at ha
              rcases ha with rfl | rfl | rfl <;>
                first
                  | exact Or.inl ⟨_, rfl⟩
                  | exact Or.inr ⟨_, rfl⟩
  | unsupported =>
      simp [validateRun, validateCore] at ha
      rcases ha with rfl | rfl <;> exact Or.inl ⟨_, rfl⟩

/-- Helper: a run of SET_VALIDATING and SET_ERRORS actions changes neither
isSubmitting nor submitAttemptCount. -/
theorem applyActions_preserves_submit {V : Type} (s : FormState V)
    (l : List (FormAction V))
    (h : ∀ a ∈ l,
      (∃ b, a = FormAction.SET_VALIDATING b) ∨
      (∃ m, a = FormAction.SET_ERRORS m)) :
    (applyActions s l).isSubmitting = s.isSubmitting ∧
    (applyActions s l).submitAttemptCount = s.submitAttemptCount := by
  induction l generalizing s with
  | nil => exact ⟨rfl, rfl⟩
  | cons a as ih =>
      have ha := h a (List.mem_cons_self a as)
      have hrest := fun x hx => h x (List.mem_cons_of_mem a hx)
      have hstep : (formReducer s a).isSubmitting = s.isSubmitting ∧
          (formReducer s a).submitAttemptCount = s.submitAttemptCount := by
        rcases ha with ⟨b, rfl⟩ | ⟨m, rfl⟩ <;> exact ⟨rfl, rfl⟩
      obtain ⟨h₁, h₂⟩ := ih (formReducer s a) hrest
      exact ⟨h₁.trans hstep.1, h₂.trans hstep.2⟩

/-- Claim C6 target: when validate resolves false, handleSubmit never
invokes onSubmit, dispatches exactly SUBMIT_ATTEMPT followed by the
validate dispatches, increments submitAttemptCount by one, never dispatches
SET_SUBMITTING true, and isSubmitting stays false at every step. -/
theorem handleSubmit_invalid_blocks_submit {V : Type} (sm : SchemaModel)
    (avs : List (AsyncValidator V)) (sv : JsMap V)
    (osr : Except Unit Unit) (ros : Bool) (iv : JsMap V) (s : FormState V)
    (hv : (validateRun sm avs sv).1 = Except.ok false)
    (hs : s.isSubmitting = false) :
    (handleSubmitRun sm avs sv osr ros iv).2.2 = false ∧
    (handleSubmitRun sm avs sv osr ros iv).2.1 =
      FormAction.SUBMIT_ATTEMPT :: (validateRun sm avs sv).2 ∧
    FormAction.SET_SUBMITTING true ∉
      (handleSubmitRun sm avs sv osr ros iv).2.1 ∧
    (applyActions s
        (handleSubmitRun sm avs sv osr ros iv).2.1).submitAttemptCount =
      s.submitAttemptCount + 1 ∧
    (∀ n, (applyActions s
        ((handleSubmitRun sm avs sv osr ros iv).2.1.take n)).isSubmitting =
      false) := by
  have hrun : handleSubmitRun sm avs sv osr ros iv =
      (Except.ok (),
       FormAction.SUBMIT_ATTEMPT :: (validateRun sm avs sv).2, false) := by
    unfold handleSubmitRun
    rw [hv]
    rfl
  refine ⟨by rw [hrun], by rw [hrun], ?_, ?_, ?_⟩
  · rw [hrun]
    intro hmem
    rcases List.mem_cons.mp hmem with hc | hc
    · exact FormAction.noConfusion hc
    · rcases validate_dispatch_shape sm avs sv _ hc with ⟨b, hb⟩ | ⟨m, hm⟩
      · exact FormAction.noConfusion hb
      · exact FormAction.noConfusion hm
  · rw [hrun]
    show (applyActions (formReducer s FormAction.SUBMIT_ATTEMPT)
        (validateRun sm avs sv).2).submitAttemptCount = _
    rw [(applyActions_preserves_submit _ _
        (validate_dispatch_shape sm avs sv)).2]
    rfl
  · intro n
    rw [hrun]
    cases n with
    | zero => exact hs
    | succ n =>
        show (applyActions (formReducer s FormAction.SUBMIT_ATTEMPT)
            ((validateRun sm avs sv).2.take n)).isSubmitting = false
        rw [(applyActions_preserves_submit _ _
            (fun a ha => validate_dispatch_shape sm avs sv a
              (List.take_subset n _ ha))).1]
        exact hs

/-- Claim C6 witness: a failing zod schema blocks submission. -/
theorem handleSubmit_invalid_blocks_submit_witness :
    (handleSubmitRun (V := Nat)
        (SchemaModel.zod (some [⟨["email"], "Required"⟩]))
        [] [] (Except.ok ()) false []).2.2 = false :=
  (handleSubmit_invalid_blocks_submit
      (SchemaModel.zod (some [⟨["email"], "Required"⟩]))
      [] [] (Except.ok ()) false [] (initialFormState []) rfl rfl).1

/-- Helper: a validate run that resolved true performed no error write
beyond the clearing one: its dispatches were exactly SET_VALIDATING true,
SET_ERRORS with the empty map, SET_VALIDATING false. -/
theorem validate_ok_true_shape {V : Type} (sm : SchemaModel)
    (avs : List (AsyncValidator V)) (values : JsMap V)
    (hv : (validateRun sm avs values).1 = Except.ok true) :
    (validateRun sm avs values).2 =
      [FormAction.SET_VALIDATING true, FormAction.SET_ERRORS [],
       FormAction.SET_VALIDATING false] := by
  cases sm with
  | zod f =>
      cases f with
      | none =>
          by_cases hae : (runAsyncValidators avs values).isEmpty
          · simp [validateRun, validateCore, hae]
          · simp [validateRun, validateCore, hae] at hv
      | some issues => simp [validateRun, validateCore] at hv
  | yup f =>
      cases f with
      | none =>
          by_cases hae : (runAsyncValidators avs values).isEmpty
          · simp [validateRun, validateCore, hae]
          · simp [validateRun, validateCore, hae] at hv
      | some yf =>
          cases yf with
          | aggregate inner => simp [validateRun, validateCore] at hv
          | single p m => simp [validateRun, validateCore] at hv
  | unsupported => simp [validateRun, validateCore] at hv

/-- Claim C9 target: after a successful submission — validate resolved
true, onSubmit resolved, resetOnSubmit disabled — the final state left by
the dispatched sequence has an empty error map and isSubmitting false, yet
isValid = false, because the guaranteed-release SET_SUBMITTING false also
overwrites isValid with the flag. -/
theorem submit_success_leaves_isValid_false {V : Type} (sm : SchemaModel)
    (avs : List (AsyncValidator V)) (sv iv : JsMap V) (s : FormState V)
    (hv : (validateRun sm avs sv).1 = Except.ok true) :
    (handleSubmitRun sm avs sv (Except.ok ()) false iv).2.2 = true ∧
    (applyActions s
        (handleSubmitRun sm avs sv (Except.ok ()) false iv).2.1).isValid =
      false ∧
    (applyActions s
        (handleSubmitRun sm avs sv (Except.ok ()) false iv).2.1).errors =
      [] ∧
    (applyActions s
        (handleSubmitRun sm avs sv (Except.ok ()) false iv).2.1).isSubmitting =
      false := by
  have hshape := validate_ok_true_shape sm avs sv hv
  have hrun : handleSubmitRun sm avs sv (Except.ok ()) false iv =
      (Except.ok (),
       [FormAction.SUBMIT_ATTEMPT, FormAction.SET_VALIDATING true,
        FormAction.SET_ERRORS [], FormAction.SET_VALIDATING false,
        FormAction.SET_SUBMITTING true, FormAction.SET_SUBMITTING false],
       true) := by
    unfold handleSubmitRun
    rw [hv, hshape]
    rfl
  rw [hrun]
  exact ⟨rfl, rfl, rfl, rfl⟩

/-- Claim C9 witness: with a passing zod schema and no async validators,
the state after handleSubmit has isValid = false. -/
theorem submit_success_leaves_isValid_false_witness :
    (applyActions (initialFormState ([] : JsMap Nat))
        (handleSubmitRun (V := Nat) (SchemaModel.zod none) [] []
          (Except.ok ()) false []).2.1).isValid = false :=
  (submit_success_leaves_isValid_false (SchemaModel.zod none) [] [] []
      (initialFormState []) rfl).2.1

end UseFormSchema
